/-
Verification of the node-arpad Elo rating library.

The source is a single ES class `ELO` holding three fields: a K-factor
policy `#k_factor` (either a number or a table object), and the bounds
`#minimum` / `#maximum` (JS numbers, defaulting to -Infinity / +Infinity).

Embedding decisions:
- JS numbers appearing as ratings and scores are idealised as elements of a
  linear ordered field `α` (instantiated at `ℚ` for executable witnesses and
  at `ℝ` where the real exponential `10 ^ x` is needed).  Floating-point
  rounding error and NaN are outside the model.
- The bounds may be ±Infinity, so they live in `WithBot (WithTop α)`
  (written `JsNum α` below): `⊥` is -Infinity, `⊤` is +Infinity.
- A K-factor table is a JS object.  `Object.keys` enumerates its numeric
  (array-index) keys in ascending numeric order and every other key — the
  string `"default"` included — afterwards, in insertion order.  We embed the
  table as the list of (threshold, value) pairs *in enumeration order*
  together with the optional value at the `"default"` key.  The `forEach` in
  `getKFactor` also visits the `"default"` key itself, but the comparison
  `'default' <= rating` coerces the string to NaN and is therefore always
  false, so that iteration step never changes the accumulator and is omitted
  from the embedding.
- `getKFactor` returns `null` when a table lookup finds nothing; this is
  `Option.none`.  When `newRating` multiplies that `null` by a number, JS
  coerces `null` to `0`; hence the `Option.getD 0` in `newRating`.
- JS truthiness on a policy value: a number is falsy exactly when it is `0`
  (NaN is outside the model); an object (table) is always truthy.
-/
import Mathlib

set_option linter.unusedSectionVars false

namespace Arpad

variable {α : Type} [LinearOrderedField α] [FloorRing α]

/-- The type of a JS number slot that may hold ±Infinity:
`⊥` models `-Infinity`, `⊤` models `Infinity`, and `JsNum.fin x` a finite
value `x`. -/
abbrev JsNum (α : Type) := WithBot (WithTop α)

/-- Embeds a finite value into `JsNum`. -/
def JsNum.fin {α : Type} (x : α) : JsNum α := ((x : WithTop α) : JsNum α)

/-- A K-factor table object: `entries` lists the numeric-threshold keys and
their values in the order `Object.keys` enumerates them (ascending numeric
order for non-negative-integer keys; insertion order for other numeric-string
keys such as `"-5"` or `"2.5"`), and `dflt` is the value at the `"default"`
key when that key is present. -/
structure KTable (α : Type) where
  entries : List (α × α)
  dflt : Option α

/-- The `#k_factor` field of the class: either a plain number or a table
object (source line 51 dispatches on `typeof this.#k_factor === 'number'`). -/
inductive KFactor (α : Type) where
  | const : α → KFactor α
  | table : KTable α → KFactor α

/-- `const DEFAULT_K_FACTOR = 32;` (source line 3). -/
def DEFAULT_K_FACTOR : α := 32

/-- JS truthiness of a `#k_factor` candidate value: a number is truthy iff it
is nonzero; an object is always truthy. -/
def KFactor.truthy : KFactor α → Bool
  | .const k => if k = 0 then false else true
  | .table _ => true

/-- The state of an `ELO` instance: the three private fields. -/
structure ELO (α : Type) where
  k_factor : KFactor α
  minimum : JsNum α
  maximum : JsNum α

/-- `constructor(k_factor, min, max)` (source lines 28–40).  The fields are
initialised to `32` / `-Infinity` / `Infinity`; a truthy `k_factor` argument
overwrites the first, and `min` / `max` overwrite the bounds whenever they are
not `undefined` (modelled by `Option.some`). -/
def ELO.construct (k_factor : Option (KFactor α)) (min max : Option (JsNum α)) :
    ELO α where
  k_factor :=
    match k_factor with
    | some kf => if kf.truthy then kf else .const DEFAULT_K_FACTOR
    | none => .const DEFAULT_K_FACTOR
  minimum := min.getD ⊥
  maximum := max.getD ⊤

/-- `getKFactor(rating)` (source lines 48–72).  A numeric policy is returned
unconditionally.  Otherwise, a falsy rating is replaced by `0`; the
accumulator starts as the `"default"` entry when that entry is truthy (the
source tests `if (this.#k_factor.default)`) and `null` otherwise; then each
enumerated threshold `≤ rating` overwrites the accumulator with its value. -/
def ELO.getKFactor (elo : ELO α) (rating : α) : Option α :=
  match elo.k_factor with
  | .const k => some k
  | .table tbl =>
    let rating := if rating = 0 then 0 else rating
    let k_factor : Option α :=
      match tbl.dflt with
      | some d => if d = 0 then none else some d
      | none => none
    tbl.entries.foldl
      (fun k_factor tv => if tv.1 ≤ rating then some tv.2 else k_factor) k_factor

/-- `getMin()` (source lines 79–81). -/
def ELO.getMin (elo : ELO α) : JsNum α := elo.minimum

/-- `getMax()` (source lines 88–90). -/
def ELO.getMax (elo : ELO α) : JsNum α := elo.maximum

/-- `setKFactor(k_factor)` (source lines 101–109): a truthy argument replaces
the policy, a falsy one resets it to `DEFAULT_K_FACTOR`. -/
def ELO.setKFactor (elo : ELO α) (k_factor : Option (KFactor α)) : ELO α :=
  { elo with
    k_factor :=
      match k_factor with
      | some kf => if kf.truthy then kf else .const DEFAULT_K_FACTOR
      | none => .const DEFAULT_K_FACTOR }

/-- `setMin(minimum)` (source lines 117–121). -/
def ELO.setMin (elo : ELO α) (minimum : JsNum α) : ELO α := { elo with minimum }

/-- `setMax(maximum)` (source lines 129–133). -/
def ELO.setMax (elo : ELO α) (maximum : JsNum α) : ELO α := { elo with maximum }

/-- `Math.round` on a finite number: the closest integer, the larger one when
two are equally close; equivalently `⌊x + 1/2⌋`. -/
def jsRound (x : α) : ℤ := ⌊x + 1 / 2⌋

/-- `newRating(expected_score, actual_score, previous_rating)` (source lines
172–183): round `previous + K·(actual − expected)` with `K` looked up at the
previous rating (`null` coercing to `0`), then clamp, minimum branch first. -/
def ELO.newRating (elo : ELO α) (expected_score actual_score previous_rating : α) :
    JsNum α :=
  let difference := actual_score - expected_score
  let rating : ℤ :=
    jsRound (previous_rating + ((elo.getKFactor previous_rating).getD 0) * difference)
  if JsNum.fin (rating : α) < elo.minimum then elo.minimum
  else if JsNum.fin (rating : α) > elo.maximum then elo.maximum
  else JsNum.fin (rating : α)

/-- `static #PERF = 400;` (source line 18). -/
def PERF : ℝ := 400

/-- `static #OUTCOME_LOST = 0;` (source line 20). -/
def OUTCOME_LOST : ℝ := 0

/-- `static #OUTCOME_TIED = 0.5;` (source line 21). -/
def OUTCOME_TIED : ℝ := 0.5

/-- `static #OUTCOME_WON = 1;` (source line 22). -/
def OUTCOME_WON : ℝ := 1

/-- `expectedScore(rating, opponent_rating)` (source lines 144–148), with the
JS float expression `Math.pow(10, difference/400)` idealised as the real
power `10 ^ (difference / 400)`. -/
noncomputable def expectedScore (rating opponent_rating : ℝ) : ℝ :=
  let difference := opponent_rating - rating
  1 / (1 + (10 : ℝ) ^ (difference / PERF))

/-- `bothExpectedScores(player_1_rating, player_2_rating)` (source lines
157–162). -/
noncomputable def bothExpectedScores (player_1_rating player_2_rating : ℝ) :
    ℝ × ℝ :=
  (expectedScore player_1_rating player_2_rating,
   expectedScore player_2_rating player_1_rating)

/-- `newRatingIfWon(rating, opponent_rating)` (source lines 194–198). -/
noncomputable def ELO.newRatingIfWon (elo : ELO ℝ) (rating opponent_rating : ℝ) :
    JsNum ℝ :=
  let odds := expectedScore rating opponent_rating
  elo.newRating odds OUTCOME_WON rating

/-- `newRatingIfLost(rating, opponent_rating)` (source lines 209–213). -/
noncomputable def ELO.newRatingIfLost (elo : ELO ℝ) (rating opponent_rating : ℝ) :
    JsNum ℝ :=
  let odds := expectedScore rating opponent_rating
  elo.newRating odds OUTCOME_LOST rating

/-- `newRatingIfTied(rating, opponent_rating)` (source lines 224–228). -/
noncomputable def ELO.newRatingIfTied (elo : ELO ℝ) (rating opponent_rating : ℝ) :
    JsNum ℝ :=
  let odds := expectedScore rating opponent_rating
  elo.newRating odds OUTCOME_TIED rating

/-- Spec-side notion for the table policy: the entry holding the greatest
threshold that is `≤ rating`, independent of enumeration order (ties broken
towards the later entry; table keys are distinct so ties do not arise). -/
def greatestQualifying (rating : α) : List (α × α) → Option (α × α)
  | [] => none
  | tv :: rest =>
    let best := greatestQualifying rating rest
    if tv.1 ≤ rating then
      match best with
      | none => some tv
      | some b => if tv.1 < b.1 then some b else some tv
    else best

theorem greatestQualifying_mem {rating : α} {entries : List (α × α)} {b : α × α}
    (h : greatestQualifying rating entries = some b) : b ∈ entries := by
  induction entries with
  | nil => simp [greatestQualifying] at h
  | cons x rest ih =>
    simp only [greatestQualifying] at h
    by_cases hx : x.1 ≤ rating
    · rw [if_pos hx] at h
      cases hgq : greatestQualifying rating rest with
      | none =>
        simp only [hgq] at h
        cases h
        exact List.mem_cons_self _ _
      | some a =>
        simp only [hgq] at h
        by_cases hlt : x.1 < a.1
        · rw [if_pos hlt] at h
          cases h
          exact List.mem_cons_of_mem _ (ih hgq)
        · rw [if_neg hlt] at h
          cases h
          exact List.mem_cons_self _ _
    · rw [if_neg hx] at h
      exact List.mem_cons_of_mem x (ih h)

theorem greatestQualifying_le {rating : α} {entries : List (α × α)} {b : α × α}
    (h : greatestQualifying rating entries = some b) : b.1 ≤ rating := by
  induction entries with
  | nil => simp [greatestQualifying] at h
  | cons x rest ih =>
    simp only [greatestQualifying] at h
    by_cases hx : x.1 ≤ rating
    · rw [if_pos hx] at h
      cases hgq : greatestQualifying rating rest with
      | none =>
        simp only [hgq] at h
        cases h
        exact hx
      | some a =>
        simp only [hgq] at h
        by_cases hlt : x.1 < a.1
        · rw [if_pos hlt] at h
          cases h
          exact ih hgq
        · rw [if_neg hlt] at h
          cases h
          exact hx
    · rw [if_neg hx] at h
      exact ih h

theorem greatestQualifying_eq_none {rating : α} {entries : List (α × α)}
    (h : greatestQualifying rating entries = none) :
    ∀ tv ∈ entries, ¬ tv.1 ≤ rating := by
  induction entries with
  | nil => intro tv htv; simp at htv
  | cons x rest ih =>
    simp only [greatestQualifying] at h
    by_cases hx : x.1 ≤ rating
    · rw [if_pos hx] at h
      cases hgq : greatestQualifying rating rest with
      | none =>
        simp only [hgq] at h
        cases h
      | some a =>
        simp only [hgq] at h
        split at h <;> cases h
    · rw [if_neg hx] at h
      intro tv htv
      rcases List.mem_cons.mp htv with rfl | hmem
      · exact hx
      · exact ih h tv hmem

theorem greatestQualifying_greatest {rating : α} {entries : List (α × α)} {b : α × α}
    (h : greatestQualifying rating entries = some b) :
    ∀ tv ∈ entries, tv.1 ≤ rating → tv.1 ≤ b.1 := by
  induction entries generalizing b with
  | nil => simp [greatestQualifying] at h
  | cons x rest ih =>
    simp only [greatestQualifying] at h
    intro tv htv htvr
    by_cases hx : x.1 ≤ rating
    · rw [if_pos hx] at h
      cases hgq : greatestQualifying rating rest with
      | none =>
        simp only [hgq] at h
        cases h
        rcases List.mem_cons.mp htv with rfl | hmem
        · exact le_rfl
        · exact absurd htvr (greatestQualifying_eq_none hgq tv hmem)
      | some a =>
        simp only [hgq] at h
        by_cases hlt : x.1 < a.1
        · rw [if_pos hlt] at h
          cases h
          rcases List.mem_cons.mp htv with rfl | hmem
          · exact le_of_lt hlt
          · exact ih hgq tv hmem htvr
        · rw [if_neg hlt] at h
          cases h
          rcases List.mem_cons.mp htv with rfl | hmem
          · exact le_rfl
          · exact le_trans (ih hgq tv hmem htvr) (not_lt.mp hlt)
    · rw [if_neg hx] at h
      rcases List.mem_cons.mp htv with rfl | hmem
      · exact absurd htvr hx
      · exact ih h tv hmem htvr

/-- On a table whose entries are enumerated in strictly ascending threshold
order, the accumulator loop of `getKFactor` computes the greatest qualifying
entry (falling back to the initial accumulator). -/
theorem foldl_table_lookup (rating : α) (entries : List (α × α))
    (hs : entries.Pairwise (fun x y : α × α => x.1 < y.1)) (init : Option α) :
    entries.foldl
        (fun k_factor tv => if tv.1 ≤ rating then some tv.2 else k_factor) init =
      match greatestQualifying rating entries with
      | some tv => some tv.2
      | none => init := by
  induction entries generalizing init with
  | nil => rfl
  | cons x rest ih =>
    rw [List.pairwise_cons] at hs
    obtain ⟨hx_rest, hrest⟩ := hs
    simp only [List.foldl_cons]
    rw [ih hrest]
    simp only [greatestQualifying]
    by_cases hx : x.1 ≤ rating
    · cases hgq : greatestQualifying rating rest with
      | none => simp [hgq, hx]
      | some a =>
        have hlt : x.1 < a.1 := hx_rest a (greatestQualifying_mem hgq)
        simp [hgq, hx, hlt]
    · cases hgq : greatestQualifying rating rest with
      | none => simp [hgq, hx]
      | some a => simp [hgq, hx]

theorem JsNum.fin_le_fin {x y : α} : JsNum.fin x ≤ JsNum.fin y ↔ x ≤ y := by
  simp [JsNum.fin]

theorem expectedScore_pos (r o : ℝ) : 0 < expectedScore r o := by
  simp only [expectedScore]
  have h : (0 : ℝ) < (10 : ℝ) ^ ((o - r) / PERF) :=
    Real.rpow_pos_of_pos (by norm_num) _
  positivity

theorem expectedScore_lt_one (r o : ℝ) : expectedScore r o < 1 := by
  simp only [expectedScore]
  have h : (0 : ℝ) < (10 : ℝ) ^ ((o - r) / PERF) :=
    Real.rpow_pos_of_pos (by norm_num) _
  rw [div_lt_one (by linarith)]
  linarith

theorem expectedScore_add (a b : ℝ) :
    expectedScore a b + expectedScore b a = 1 := by
  simp only [expectedScore]
  have h : (0 : ℝ) < (10 : ℝ) ^ ((b - a) / PERF) :=
    Real.rpow_pos_of_pos (by norm_num) _
  have hneg : (a - b) / PERF = -((b - a) / PERF) := by ring
  rw [hneg, Real.rpow_neg (by norm_num)]
  have h0 : (10 : ℝ) ^ ((b - a) / PERF) ≠ 0 := ne_of_gt h
  have h1 : 1 + (10 : ℝ) ^ ((b - a) / PERF) ≠ 0 := by positivity
  field_simp
  ring

theorem JsNum.fin_lt_fin {x y : α} : JsNum.fin x < JsNum.fin y ↔ x < y := by
  simp [JsNum.fin]

/-- When the opponent leads by at least `1200` points the expected score is
at most `1/1001` (since `10 ^ 3 = 1000`). -/
theorem expectedScore_le_of_big_gap (r o : ℝ) (h : (3 : ℝ) ≤ (o - r) / 400) :
    expectedScore r o ≤ 1 / 1001 := by
  simp only [expectedScore, PERF]
  have h10 : (1000 : ℝ) ≤ (10 : ℝ) ^ ((o - r) / 400) := by
    have h3 : (10 : ℝ) ^ (3 : ℝ) ≤ (10 : ℝ) ^ ((o - r) / 400) :=
      Real.rpow_le_rpow_of_exponent_le (by norm_num) h
    have h1000 : (10 : ℝ) ^ (3 : ℝ) = 1000 := by
      rw [show (3 : ℝ) = ((3 : ℕ) : ℝ) by norm_num, Real.rpow_natCast]
      norm_num
    linarith
  rw [div_le_div_iff₀ (by linarith) (by norm_num)]
  linarith

/-- Evaluation helper: when the rounded update is `n` and `n` is within the
finite bounds, `newRating` returns `n`. -/
theorem newRating_eval (elo : ELO α) (e a p qmin qmax : α) (n : ℤ)
    (hmin : elo.minimum = JsNum.fin qmin) (hmax : elo.maximum = JsNum.fin qmax)
    (hr : jsRound (p + ((elo.getKFactor p).getD 0) * (a - e)) = n)
    (h1 : ¬ (n : α) < qmin) (h2 : ¬ qmax < (n : α)) :
    elo.newRating e a p = JsNum.fin ((n : α)) := by
  have hne1 : ¬ JsNum.fin ((n : α)) < JsNum.fin qmin :=
    fun hlt => h1 (JsNum.fin_lt_fin.mp hlt)
  have hne2 : ¬ JsNum.fin ((n : α)) > JsNum.fin qmax :=
    fun hlt => h2 (JsNum.fin_lt_fin.mp hlt)
  simp only [ELO.newRating, hr, hmin, hmax]
  rw [if_neg hne1, if_neg hne2]

/-- The calculator of the table scenario: policy
`{default: 100, 0: 50, 1000: 25}` with bounds `[-2000, 2000]`. -/
noncomputable def c8elo : ELO ℝ :=
  ELO.construct (some (.table ⟨[(0, 50), (1000, 25)], some 100⟩))
    (some (JsNum.fin (-2000))) (some (JsNum.fin 2000))

/-- C8: with the table policy `{default: 100, 0: 50, 1000: 25}` and bounds
`[-2000, 2000]`: `newRatingIfWon(500, 2000) = 550` (K = 50 from threshold 0)
and `newRatingIfWon(-500, 2000) = -400` (default K = 100 since `-500` is
below the lowest threshold `0`). -/
theorem c8_table_scenarios :
    c8elo.getKFactor 500 = some 50 ∧
    c8elo.getKFactor (-500) = some 100 ∧
    c8elo.newRatingIfWon 500 2000 = JsNum.fin 550 ∧
    c8elo.newRatingIfWon (-500) 2000 = JsNum.fin (-400) := by
  have hk50 : c8elo.getKFactor 500 = some 50 := by
    norm_num [c8elo, ELO.construct, ELO.getKFactor, KFactor.truthy]
  have hk100 : c8elo.getKFactor (-500) = some 100 := by
    norm_num [c8elo, ELO.construct, ELO.getKFactor, KFactor.truthy]
  have hes1pos := expectedScore_pos 500 2000
  have hes1le : expectedScore 500 2000 ≤ 1 / 1001 :=
    expectedScore_le_of_big_gap 500 2000 (by norm_num)
  have hes2pos := expectedScore_pos (-500) 2000
  have hes2le : expectedScore (-500) 2000 ≤ 1 / 1001 :=
    expectedScore_le_of_big_gap (-500) 2000 (by norm_num)
  refine ⟨hk50, hk100, ?_, ?_⟩
  · show c8elo.newRating (expectedScore 500 2000) OUTCOME_WON 500 = JsNum.fin 550
    have h550 : ((550 : ℤ) : ℝ) = 550 := by push_cast; ring
    rw [← h550]
    apply newRating_eval c8elo _ _ _ (-2000) 2000 550 rfl rfl
    · rw [hk50]
      simp only [Option.getD_some, OUTCOME_WON, jsRound]
      rw [Int.floor_eq_iff]
      push_cast
      constructor <;> linarith
    · rw [h550]; norm_num
    · rw [h550]; norm_num
  · show c8elo.newRating (expectedScore (-500) 2000) OUTCOME_WON (-500) =
      JsNum.fin (-400)
    have h400 : ((-400 : ℤ) : ℝ) = -400 := by push_cast; ring
    rw [← h400]
    apply newRating_eval c8elo _ _ _ (-2000) 2000 (-400) rfl rfl
    · rw [hk100]
      simp only [Option.getD_some, OUTCOME_WON, jsRound]
      rw [Int.floor_eq_iff]
      push_cast
      constructor <;> linarith
    · rw [h400]; norm_num
    · rw [h400]; norm_num

/-- C1 counterexample, exhibiting the two distinct ways the claim fails on
realizable JS tables.

First failure (default entry): the source guards the fallback with a
*truthiness* test (`if (this.#k_factor.default)`), so a table whose
`"default"` entry exists but holds the value `0` is ignored: with the table
`{default: 0, 0: 50}` and the rating `-1` (below the only threshold `0`),
the claim requires the default entry `0`, yet `getKFactor` returns `null`.

Second failure (enumeration order): the loop keeps the *last enumerated*
qualifying entry, which is the greatest qualifying threshold only when the
enumeration is ascending.  The JS table `{2100: 24, 0: 32, '-100': 48}` is
enumerated by `Object.keys` as `['0', '2100', '-100']` (`'-100'` is not an
array-index key, so it follows the integer-index keys in insertion order),
i.e. the entry list `[(0, 32), (2100, 24), (-100, 48)]`; at rating `500` the
greatest threshold `≤ 500` is `0` with value `32` (second conjunct, via the
verified `greatestQualifying`), yet `getKFactor` returns `48`, the value of
the later-enumerated qualifying threshold `-100`. -/
theorem c1_counterexample :
    ((ELO.construct (some (.table ⟨[((0 : ℚ), 50)], some 0⟩)) none none).getKFactor
        (-1) = none ∧
     (⟨[((0 : ℚ), 50)], some 0⟩ : KTable ℚ).dflt = some 0 ∧
     (ELO.construct (some (.table ⟨[((0 : ℚ), 50)], some 0⟩)) none none).getKFactor
        (-1) ≠ some 0) ∧
    ((ELO.construct (some (.table ⟨[((0 : ℚ), 32), (2100, 24), (-100, 48)], none⟩))
        none none).getKFactor 500 = some 48 ∧
     greatestQualifying (500 : ℚ) [((0 : ℚ), 32), (2100, 24), (-100, 48)] =
        some (0, 32) ∧
     (ELO.construct (some (.table ⟨[((0 : ℚ), 32), (2100, 24), (-100, 48)], none⟩))
        none none).getKFactor 500 ≠ some 32) := by
  have h : (ELO.construct (some (.table ⟨[((0 : ℚ), 50)], some 0⟩))
      none none).getKFactor (-1) = none := by
    norm_num [ELO.construct, ELO.getKFactor, KFactor.truthy]
  have h2 : (ELO.construct
      (some (.table ⟨[((0 : ℚ), 32), (2100, 24), (-100, 48)], none⟩))
      none none).getKFactor 500 = some 48 := by
    norm_num [ELO.construct, ELO.getKFactor, KFactor.truthy]
  have h3 : greatestQualifying (500 : ℚ) [((0 : ℚ), 32), (2100, 24), (-100, 48)] =
      some (0, 32) := by
    norm_num [greatestQualifying]
  exact ⟨⟨h, rfl, by rw [h]; simp⟩, h2, h3, by rw [h2]; simp⟩

/-- C1 (amended): on a table policy whose entries are enumerated in strictly
ascending threshold order (which JS guarantees for the non-negative-integer
keys of a table literal), `getKFactor` returns the value at the greatest
threshold `≤ rating`; if no threshold qualifies it returns the `"default"`
entry when one exists *with a truthy (nonzero) value*, and otherwise the
null/absence value `none`, without throwing.  The last two conjuncts certify
that `greatestQualifying` picks exactly the greatest qualifying threshold. -/
theorem c1_table_lookup_amended (elo : ELO α) (tbl : KTable α) (rating : α)
    (hk : elo.k_factor = .table tbl)
    (hs : tbl.entries.Pairwise (fun x y : α × α => x.1 < y.1)) :
    elo.getKFactor rating =
      (match greatestQualifying rating tbl.entries with
       | some tv => some tv.2
       | none =>
         match tbl.dflt with
         | some d => if d = 0 then none else some d
         | none => none) ∧
    (∀ b : α × α, greatestQualifying rating tbl.entries = some b →
      b ∈ tbl.entries ∧ b.1 ≤ rating ∧
        ∀ tv ∈ tbl.entries, tv.1 ≤ rating → tv.1 ≤ b.1) ∧
    (greatestQualifying rating tbl.entries = none →
      ∀ tv ∈ tbl.entries, ¬ tv.1 ≤ rating) := by
  refine ⟨?_, fun b hb => ⟨greatestQualifying_mem hb, greatestQualifying_le hb,
    greatestQualifying_greatest hb⟩, greatestQualifying_eq_none⟩
  simp only [ELO.getKFactor, hk]
  have hr : (if rating = 0 then (0 : α) else rating) = rating := by
    split
    · simp_all
    · rfl
  rw [hr, foldl_table_lookup rating tbl.entries hs]

/-- Witness for C1 (amended) at the table `{0: 50, 1000: 25, default: 100}`
and the rating `500`. -/
theorem c1_table_lookup_witness :
    (ELO.construct (some (.table ⟨[((0 : ℚ), 50), (1000, 25)], some 100⟩))
        none none).k_factor = .table ⟨[((0 : ℚ), 50), (1000, 25)], some 100⟩ ∧
    (⟨[((0 : ℚ), 50), (1000, 25)], some 100⟩ : KTable ℚ).entries.Pairwise
      (fun x y : ℚ × ℚ => x.1 < y.1) ∧
    ((ELO.construct (some (.table ⟨[((0 : ℚ), 50), (1000, 25)], some 100⟩))
          none none).getKFactor 500 =
        (match greatestQualifying (500 : ℚ)
            (⟨[((0 : ℚ), 50), (1000, 25)], some 100⟩ : KTable ℚ).entries with
         | some tv => some tv.2
         | none =>
           match (⟨[((0 : ℚ), 50), (1000, 25)], some 100⟩ : KTable ℚ).dflt with
           | some d => if d = 0 then none else some d
           | none => none) ∧
      (∀ b : ℚ × ℚ,
        greatestQualifying (500 : ℚ)
            (⟨[((0 : ℚ), 50), (1000, 25)], some 100⟩ : KTable ℚ).entries = some b →
          b ∈ (⟨[((0 : ℚ), 50), (1000, 25)], some 100⟩ : KTable ℚ).entries ∧
            b.1 ≤ 500 ∧
            ∀ tv ∈ (⟨[((0 : ℚ), 50), (1000, 25)], some 100⟩ : KTable ℚ).entries,
              tv.1 ≤ 500 → tv.1 ≤ b.1) ∧
      (greatestQualifying (500 : ℚ)
          (⟨[((0 : ℚ), 50), (1000, 25)], some 100⟩ : KTable ℚ).entries = none →
        ∀ tv ∈ (⟨[((0 : ℚ), 50), (1000, 25)], some 100⟩ : KTable ℚ).entries,
          ¬ tv.1 ≤ (500 : ℚ))) :=
  ⟨rfl, by norm_num [List.pairwise_cons],
    c1_table_lookup_amended _ ⟨[((0 : ℚ), 50), (1000, 25)], some 100⟩ 500 rfl
      (by norm_num [List.pairwise_cons])⟩

/-- C3: `expectedScore(rating, opponentRating)` equals
`1 / (1 + 10 ^ ((opponentRating - rating) / 400))` and lies strictly between
`0` and `1`. -/
theorem c3_expectedScore_formula_range (r o : ℝ) :
    expectedScore r o = 1 / (1 + (10 : ℝ) ^ ((o - r) / 400)) ∧
    0 < expectedScore r o ∧ expectedScore r o < 1 :=
  ⟨rfl, expectedScore_pos r o, expectedScore_lt_one r o⟩

/-- C5: the convenience methods equal `expectedScore` followed by `newRating`
with the matching outcome constant (`1`, `0`, `0.5`). -/
theorem c5_convenience_equalities (elo : ELO ℝ) (r o : ℝ) :
    elo.newRatingIfWon r o = elo.newRating (expectedScore r o) 1 r ∧
    elo.newRatingIfLost r o = elo.newRating (expectedScore r o) 0 r ∧
    elo.newRatingIfTied r o = elo.newRating (expectedScore r o) 0.5 r :=
  ⟨rfl, rfl, rfl⟩

/-- C6: `expectedScore(a, b) + expectedScore(b, a)` equals `1` within the
tolerance `1e-9` (in the real-number idealisation the sum is exactly 1). -/
theorem c6_expectedScore_sum_near_one (a b : ℝ) :
    |expectedScore a b + expectedScore b a - 1| < 1 / 1000000000 := by
  rw [expectedScore_add]
  norm_num

/-- C7: the player with the strictly greater rating has the strictly greater
expected score. -/
theorem c7_higher_rating_higher_expectation (a b : ℝ) (h : a > b) :
    expectedScore a b > expectedScore b a := by
  simp only [expectedScore]
  have hP : (0 : ℝ) < PERF := by norm_num [PERF]
  have h1 : (10 : ℝ) ^ ((b - a) / PERF) < (10 : ℝ) ^ ((a - b) / PERF) := by
    rw [Real.rpow_lt_rpow_left_iff (by norm_num : (1 : ℝ) < 10)]
    apply div_lt_div_of_pos_right (by linarith) hP
  have hb : (0 : ℝ) < 1 + (10 : ℝ) ^ ((b - a) / PERF) := by
    have := Real.rpow_pos_of_pos (show (0:ℝ) < 10 by norm_num) ((b - a) / PERF)
    linarith
  exact one_div_lt_one_div_of_lt hb (by linarith)

/-- Witness for C7 at the ratings `a = 1 > b = 0`. -/
theorem c7_higher_rating_witness :
    (1 : ℝ) > 0 ∧ expectedScore 1 0 > expectedScore 0 1 :=
  ⟨by norm_num, c7_higher_rating_higher_expectation 1 0 (by norm_num)⟩

/-- C2: `newRating(expected, actual, previous)` computes
`previous + K * (actual - expected)` with `K = getKFactor(previous)` (a table
policy is keyed off the previous rating), rounds to the nearest integer with
halves towards positive infinity (`r` below is the unique integer with
`r - 1/2 ≤ raw < r + 1/2`), and clamps, minimum branch first. -/
theorem c2_newRating_formula (elo : ELO α) (e a p k : α)
    (h : elo.getKFactor p = some k) :
    ∃ r : ℤ, (r : α) - 1 / 2 ≤ p + k * (a - e) ∧ p + k * (a - e) < (r : α) + 1 / 2 ∧
      elo.newRating e a p =
        if JsNum.fin ((r : α)) < elo.minimum then elo.minimum
        else if JsNum.fin ((r : α)) > elo.maximum then elo.maximum
        else JsNum.fin ((r : α)) := by
  refine ⟨jsRound (p + k * (a - e)), ?_, ?_, ?_⟩
  · have h1 := Int.floor_le (p + k * (a - e) + 1 / 2)
    simp only [jsRound]
    linarith
  · have h2 := Int.lt_floor_add_one (p + k * (a - e) + 1 / 2)
    simp only [jsRound]
    push_cast at h2 ⊢
    linarith
  · simp only [ELO.newRating, h, Option.getD_some]

/-- Witness for C2 at the constant-32 policy, `expected = 1/2`, `actual = 1`,
`previous = 100`. -/
theorem c2_newRating_formula_witness :
    (ELO.construct (some (.const (32 : ℚ))) none none).getKFactor 100 = some 32 ∧
    (∃ r : ℤ, (r : ℚ) - 1 / 2 ≤ 100 + 32 * (1 - 1 / 2) ∧
      100 + 32 * (1 - 1 / 2) < (r : ℚ) + 1 / 2 ∧
      (ELO.construct (some (.const (32 : ℚ))) none none).newRating (1 / 2) 1 100 =
        if JsNum.fin ((r : ℚ)) < (ELO.construct (some (.const (32 : ℚ))) none none).minimum
          then (ELO.construct (some (.const (32 : ℚ))) none none).minimum
        else if JsNum.fin ((r : ℚ)) > (ELO.construct (some (.const (32 : ℚ))) none none).maximum
          then (ELO.construct (some (.const (32 : ℚ))) none none).maximum
        else JsNum.fin ((r : ℚ))) :=
  ⟨by norm_num [ELO.construct, ELO.getKFactor, KFactor.truthy, DEFAULT_K_FACTOR],
   c2_newRating_formula _ (1 / 2) 1 100 32
    (by norm_num [ELO.construct, ELO.getKFactor, KFactor.truthy, DEFAULT_K_FACTOR])⟩

/-- C4 counterexample: with the finite bounds `minimum = 10 > maximum = 5`
(the setters and constructor never validate the bounds against each other),
`newRating 0 0 0` returns the minimum `10`, which does not lie in the empty
interval `[10, 5]`. -/
theorem c4_counterexample :
    (ELO.construct (some (.const (32 : ℚ))) (some (JsNum.fin 10))
        (some (JsNum.fin 5))).minimum = JsNum.fin 10 ∧
    (ELO.construct (some (.const (32 : ℚ))) (some (JsNum.fin 10))
        (some (JsNum.fin 5))).maximum = JsNum.fin 5 ∧
    (ELO.construct (some (.const (32 : ℚ))) (some (JsNum.fin 10))
        (some (JsNum.fin 5))).newRating 0 0 0 = JsNum.fin 10 ∧
    ¬ JsNum.fin (10 : ℚ) ≤ JsNum.fin 5 := by
  refine ⟨rfl, rfl, ?_, ?_⟩
  · norm_num [ELO.construct, ELO.newRating, ELO.getKFactor, KFactor.truthy,
      DEFAULT_K_FACTOR, jsRound, JsNum.fin]
  · simp only [JsNum.fin_le_fin]
    norm_num

/-- C4 (amended): whenever the configured minimum and maximum are both finite
*and the minimum does not exceed the maximum*, `newRating` lands in
`[minimum, maximum]` inclusive, for any numeric inputs. -/
theorem c4_bounds_amended (elo : ELO α) (e a p qmin qmax : α)
    (hmin : elo.minimum = JsNum.fin qmin) (hmax : elo.maximum = JsNum.fin qmax)
    (hle : qmin ≤ qmax) :
    elo.minimum ≤ elo.newRating e a p ∧ elo.newRating e a p ≤ elo.maximum := by
  have hmm : elo.minimum ≤ elo.maximum := by
    rw [hmin, hmax]
    exact JsNum.fin_le_fin.mpr hle
  simp only [ELO.newRating]
  split_ifs with h1 h2
  · exact ⟨le_rfl, hmm⟩
  · exact ⟨hmm, le_rfl⟩
  · exact ⟨not_lt.mp h1, not_lt.mp h2⟩

/-- Witness for C4 (amended) at constant policy 32, bounds `[0, 10]`, all
numeric arguments `0`. -/
theorem c4_bounds_witness :
    (ELO.construct (some (.const (32 : ℚ))) (some (JsNum.fin 0))
        (some (JsNum.fin 10))).minimum = JsNum.fin 0 ∧
    (ELO.construct (some (.const (32 : ℚ))) (some (JsNum.fin 0))
        (some (JsNum.fin 10))).maximum = JsNum.fin 10 ∧
    (0 : ℚ) ≤ 10 ∧
    ((ELO.construct (some (.const (32 : ℚ))) (some (JsNum.fin 0))
        (some (JsNum.fin 10))).minimum ≤
      (ELO.construct (some (.const (32 : ℚ))) (some (JsNum.fin 0))
        (some (JsNum.fin 10))).newRating 0 0 0 ∧
     (ELO.construct (some (.const (32 : ℚ))) (some (JsNum.fin 0))
        (some (JsNum.fin 10))).newRating 0 0 0 ≤
      (ELO.construct (some (.const (32 : ℚ))) (some (JsNum.fin 0))
        (some (JsNum.fin 10))).maximum) :=
  ⟨rfl, rfl, by norm_num,
    c4_bounds_amended _ 0 0 0 0 10 rfl rfl (by norm_num)⟩

/-- C9: a falsy K-factor policy supplied to the constructor or to
`setKFactor` resets the policy to the constant `32`, so `getKFactor`
subsequently returns `32` for every rating. -/
theorem c9_falsy_policy_default (kf : Option (KFactor α)) (mn mx : Option (JsNum α))
    (elo : ELO α) (r : α) (h : ∀ p, kf = some p → p.truthy = false) :
    (ELO.construct kf mn mx).k_factor = .const 32 ∧
    (ELO.construct kf mn mx).getKFactor r = some 32 ∧
    (elo.setKFactor kf).k_factor = .const 32 ∧
    (elo.setKFactor kf).getKFactor r = some 32 := by
  have hres : (match kf with
      | some p => if p.truthy then p else KFactor.const (DEFAULT_K_FACTOR : α)
      | none => KFactor.const DEFAULT_K_FACTOR) = KFactor.const 32 := by
    cases kf with
    | none => rfl
    | some p => simp [h p rfl, DEFAULT_K_FACTOR]
  have h1 : (ELO.construct kf mn mx).k_factor = .const 32 := hres
  have h2 : (elo.setKFactor kf).k_factor = .const 32 := hres
  exact ⟨h1, by simp [ELO.getKFactor, h1], h2, by simp [ELO.getKFactor, h2]⟩

/-- Witness for C9 with the falsy policy `0` (a number, hence falsy exactly
when zero), rating `7`. -/
theorem c9_falsy_policy_witness :
    (∀ p : KFactor ℚ, (some (KFactor.const 0) : Option (KFactor ℚ)) = some p →
      p.truthy = false) ∧
    ((ELO.construct (some (KFactor.const (0 : ℚ))) none none).k_factor = .const 32 ∧
     (ELO.construct (some (KFactor.const (0 : ℚ))) none none).getKFactor 7 = some 32 ∧
     ((ELO.construct (some (KFactor.const (1 : ℚ))) none none).setKFactor
        (some (KFactor.const 0))).k_factor = .const 32 ∧
     ((ELO.construct (some (KFactor.const (1 : ℚ))) none none).setKFactor
        (some (KFactor.const 0))).getKFactor 7 = some 32) := by
  constructor
  · intro p hp
    cases hp
    simp [KFactor.truthy]
  · exact c9_falsy_policy_default (some (KFactor.const 0)) none none _ 7
      (by intro p hp; cases hp; simp [KFactor.truthy])

/-- C10: whenever the rounded update is strictly below the configured
minimum, `newRating` returns exactly the minimum — the minimum branch is
tested first, so the maximum clamp is skipped even when the minimum is not an
integer or exceeds the maximum. -/
theorem c10_minimum_branch_first (elo : ELO α) (e a p : α)
    (h : JsNum.fin ((jsRound (p + ((elo.getKFactor p).getD 0) * (a - e)) : ℤ) : α) <
      elo.minimum) :
    elo.newRating e a p = elo.minimum := by
  simp only [ELO.newRating]
  rw [if_pos h]

/-- Witness for C10 with the non-integer minimum `5/2` that exceeds the
maximum `0`: `newRating 0 0 0` rounds to `0 < 5/2` and returns `5/2`. -/
theorem c10_minimum_branch_witness :
    JsNum.fin ((jsRound ((0 : ℚ) +
        (((ELO.construct (some (.const (32 : ℚ))) (some (JsNum.fin (5 / 2)))
          (some (JsNum.fin 0))).getKFactor 0).getD 0) * (0 - 0)) : ℤ) : ℚ) <
      (ELO.construct (some (.const (32 : ℚ))) (some (JsNum.fin (5 / 2)))
        (some (JsNum.fin 0))).minimum ∧
    (ELO.construct (some (.const (32 : ℚ))) (some (JsNum.fin (5 / 2)))
        (some (JsNum.fin 0))).newRating 0 0 0 =
      (ELO.construct (some (.const (32 : ℚ))) (some (JsNum.fin (5 / 2)))
        (some (JsNum.fin 0))).minimum := by
  have h : JsNum.fin ((jsRound ((0 : ℚ) +
      (((ELO.construct (some (.const (32 : ℚ))) (some (JsNum.fin (5 / 2)))
        (some (JsNum.fin 0))).getKFactor 0).getD 0) * (0 - 0)) : ℤ) : ℚ) <
      (ELO.construct (some (.const (32 : ℚ))) (some (JsNum.fin (5 / 2)))
        (some (JsNum.fin 0))).minimum := by
    norm_num [ELO.construct, ELO.getKFactor, KFactor.truthy, DEFAULT_K_FACTOR,
      jsRound, JsNum.fin]
  exact ⟨h, c10_minimum_branch_first _ 0 0 0 h⟩

end Arpad
